import Mathlib

/-!
Verification of the spaced-repetition / session / pet core of the Animals
Telegram bot, shallowly embedded from the Python sources:

* `bot/storage/repositories.py` — `ItemProgressRepository.record_correct`,
  `record_wrong`, and the session-state / progress / attempt tables;
* `bot/services/session_service.py` — `SessionService.build_deck`,
  `start_session`, `advance_item`, `finish_if_needed`, `complete_session`;
* `bot/services/pet_service.py` — `PetService.apply_decay`.

Timestamps are modelled as natural numbers (seconds); SQLite rows become
structures, the store becomes explicit lists of rows, and the
nondeterministic `random.shuffle` becomes an explicit shuffle-function
parameter constrained to produce permutations.
-/

namespace Animals

/-! ## Item progress tracker (`ItemProgressRepository`) -/

/-- Ten minutes, in seconds (`timedelta(minutes=10)`). -/
def tenMinutes : Nat := 600

/-- Two days, in seconds (`timedelta(days=2)`). -/
def twoDays : Nat := 172800

/-- One row of the `item_progress` table, for a fixed (user, level, content).
`learn_correct_count` and `review_stage` default to 0 when the columns are
NULL, exactly as `record_correct` / `record_wrong` read them. -/
structure ItemProg where
  learn_correct_count : Nat
  review_stage : Nat
  next_due_at : Option Nat
  last_seen_at : Option Nat
deriving Repr, DecidableEq

/-- The row `_ensure_row` inserts when none exists: all progress columns NULL,
read back as count 0, stage 0, no due date. -/
def freshRow : ItemProg := ⟨0, 0, none, none⟩

/-- `ItemProgressRepository.record_correct`: reads the stored row (creating the
default one if absent) and advances the learning/review state machine by one
step, writing back count, stage, due date and `last_seen_at = now`. -/
def record_correct (stored : Option ItemProg) (now : Nat) : ItemProg :=
  let s := stored.getD freshRow
  if s.review_stage = 0 ∧ s.learn_correct_count < 2 then
    let c := s.learn_correct_count + 1
    if 2 ≤ c then
      ⟨c, 1, some (now + tenMinutes), some now⟩
    else
      ⟨c, 0, none, some now⟩
  else if s.review_stage = 1 then
    ⟨s.learn_correct_count, 2, some (now + twoDays), some now⟩
  else if s.review_stage = 2 then
    ⟨s.learn_correct_count, 3, none, some now⟩
  else
    ⟨s.learn_correct_count, s.review_stage, none, some now⟩

/-- `ItemProgressRepository.record_wrong`: never touches count or stage; only
reschedules (`now + 10min` when stage ≥ 1, NULL otherwise) and stamps
`last_seen_at`. -/
def record_wrong (stored : Option ItemProg) (now : Nat) : ItemProg :=
  let s := stored.getD freshRow
  { s with
    next_due_at := if 1 ≤ s.review_stage then some (now + tenMinutes) else none
    last_seen_at := some now }

/-- One call against the tracker for a fixed (user, level, content). -/
inductive TrackerOp where
  | correct (now : Nat)
  | wrong (now : Nat)
deriving Repr, DecidableEq

/-- Apply one tracker call to an existing stored row. -/
def applyOp (s : ItemProg) (op : TrackerOp) : ItemProg :=
  match op with
  | .correct now => record_correct (some s) now
  | .wrong now => record_wrong (some s) now

/-- Apply a finite sequence of tracker calls to an existing stored row. -/
def runOps (s : ItemProg) (ops : List TrackerOp) : ItemProg :=
  ops.foldl applyOp s

/-! ## Content catalog and deck builder (`SessionService.build_deck`) -/

/-- `ContentItem` of `content_service.py` (fields relevant to deck building). -/
structure ContentItem where
  id : String
  sublevel : Option String
deriving Repr, DecidableEq

/-- A deck entry `DeckItem(level, content_id)` of `session_service.py`. -/
structure DeckItem where
  level : Nat
  content_id : String
deriving Repr, DecidableEq

/-- One row of `item_progress` as read by `build_deck` via `list_all`:
the key plus the columns the builder consults. -/
structure ProgRow where
  level : Nat
  content_id : String
  review_stage : Nat
  next_due_at : Option Nat
deriving Repr, DecidableEq

/-- The content catalog: `available_levels()` (sorted ascending by
`ContentService.available_levels`) and `get_level_items`; `none` models the
`FileNotFoundError` raised for a missing level file. -/
structure Catalog where
  levels : List Nat
  items : Nat → Option (List ContentItem)

/-- Lookup in the `progress_map` dict keyed by `(level, content_id)`.
Rows come from a table with primary key (user, level, content), so keys are
unique and first-match lookup coincides with the Python dict. -/
def lookupProg (progress : List ProgRow) (lvl : Nat) (cid : String) : Option ProgRow :=
  progress.find? (fun e => e.level == lvl && e.content_id == cid)

/-- `is_finished` inside `build_deck`: the stored `review_stage` equals 3. -/
def isFinished (progress : List ProgRow) (lvl : Nat) (cid : String) : Bool :=
  match lookupProg progress lvl cid with
  | some e => e.review_stage == 3
  | none => false

/-- The builder's due filter: a non-null `next_due_at` that is `<= now`. -/
def isDue (now : Nat) (e : ProgRow) : Bool :=
  match e.next_due_at with
  | some t => t ≤ now
  | none => false

/-- Sort key used by `due.sort`: `next_due_at or now`. -/
def dueKey (now : Nat) (e : ProgRow) : Nat := e.next_due_at.getD now

/-- Stable insertion into a list sorted by `dueKey` (models the stable
`list.sort` on the due bucket). -/
def insertByDue (now : Nat) (d : ProgRow) : List ProgRow → List ProgRow
  | [] => [d]
  | x :: xs =>
    if dueKey now d ≤ dueKey now x then d :: x :: xs
    else x :: insertByDue now d xs

/-- Stable sort of the due rows by ascending `next_due_at`. -/
def sortByDue (now : Nat) : List ProgRow → List ProgRow
  | [] => []
  | x :: xs => insertByDue now x (sortByDue now xs)

/-- `due_items()` inside `build_deck`: progress rows whose due time has
passed, sorted ascending by due time. -/
def dueRows (progress : List ProgRow) (now : Nat) : List ProgRow :=
  sortByDue now (progress.filter (isDue now))

/-- The builder's accumulator: the deck built so far plus the `chosen`
dedup set of `(level, content_id)` keys (modelled as a list). -/
abbrev DeckAcc := List DeckItem × List (Nat × String)

/-- Step 1 of `build_deck`: walk the due rows, stop at `total_items`,
dedup by key. -/
def addDue (total : Nat) : List ProgRow → DeckAcc → DeckAcc
  | [], acc => acc
  | d :: ds, (deck, chosen) =>
    if total ≤ deck.length then (deck, chosen)
    else if (d.level, d.content_id) ∈ chosen then addDue total ds (deck, chosen)
    else addDue total ds (deck ++ [⟨d.level, d.content_id⟩], (d.level, d.content_id) :: chosen)

/-- The nested `add_items(item_level, items)` of `build_deck`, after its
`random.shuffle` has been applied by the caller: walk the items, stop at
`total_items`, skip already-chosen keys and finished items. -/
def addItems (progress : List ProgRow) (total : Nat) (lvl : Nat) :
    List ContentItem → DeckAcc → DeckAcc
  | [], acc => acc
  | itm :: rest, (deck, chosen) =>
    if total ≤ deck.length then (deck, chosen)
    else if (lvl, itm.id) ∈ chosen then addItems progress total lvl rest (deck, chosen)
    else if isFinished progress lvl itm.id then addItems progress total lvl rest (deck, chosen)
    else addItems progress total lvl rest (deck ++ [⟨lvl, itm.id⟩], (lvl, itm.id) :: chosen)

/-- ASCII lowercase of one character (`str.lower()` restricted to the ASCII
range in which the sublevel tags "mono"/"di" live). -/
def lowerChar (c : Char) : Char :=
  if 'A' ≤ c ∧ c ≤ 'Z' then Char.ofNat (c.toNat + 32) else c

/-- ASCII `str.lower()`. -/
def lowerStr (s : String) : String := ⟨s.data.map lowerChar⟩

/-- `(i.sublevel or "").lower()`. -/
def subTag (i : ContentItem) : String := lowerStr (i.sublevel.getD "")

/-- The level-1 "mono" bucket. -/
def monoOf (items : List ContentItem) : List ContentItem :=
  items.filter (fun i => subTag i == "mono")

/-- The level-1 "di" bucket. -/
def diOf (items : List ContentItem) : List ContentItem :=
  items.filter (fun i => subTag i == "di")

/-- Items of a level not yet finished. -/
def unfinishedOf (progress : List ProgRow) (lvl : Nat) (items : List ContentItem) :
    List ContentItem :=
  items.filter (fun i => !(isFinished progress lvl i.id))

/-- Step 2 of `build_deck`: unfinished items of the current level, with the
mono/di gating when `current_level == 1`. `σ` is the injected
`random.shuffle`. -/
def addCurrentLevel (σ : List ContentItem → List ContentItem)
    (progress : List ProgRow) (total current : Nat)
    (level_items : List ContentItem) (acc : DeckAcc) : DeckAcc :=
  if current = 1 then
    let mono := monoOf level_items
    let di := diOf level_items
    let um := unfinishedOf progress 1 mono
    let acc1 := if um.isEmpty then acc else addItems progress total 1 (σ um) acc
    if acc1.1.length < total then
      let ud := unfinishedOf progress 1 di
      addItems progress total 1 (σ (if ud.isEmpty then di else ud)) acc1
    else acc1
  else
    let unf := unfinishedOf progress current level_items
    addItems progress total current (σ (if unf.isEmpty then level_items else unf)) acc

/-- Step 3 of `build_deck`: remaining levels in catalog order, skipping the
current level; a missing level file (`none`) is skipped. -/
def addOtherLevels (cat : Catalog) (σ : List ContentItem → List ContentItem)
    (progress : List ProgRow) (total current : Nat) :
    List Nat → DeckAcc → DeckAcc
  | [], acc => acc
  | lvl :: rest, acc =>
    if total ≤ acc.1.length ∨ lvl = current then
      addOtherLevels cat σ progress total current rest acc
    else
      match cat.items lvl with
      | none => addOtherLevels cat σ progress total current rest acc
      | some items =>
        let unf := unfinishedOf progress lvl items
        addOtherLevels cat σ progress total current rest
          (addItems progress total lvl (σ (if unf.isEmpty then items else unf)) acc)

/-- Step 4 of `build_deck`: cycle through the current level's full item list
in catalog order until the deck reaches `total_items`. -/
def repeatFill (current total : Nat) (level_items : List ContentItem)
    (deck : List DeckItem) : List DeckItem :=
  if deck.length < total ∧ level_items ≠ [] then
    deck ++ (List.range (total - deck.length)).map
      (fun i => ⟨current, (level_items.getD (i % level_items.length) ⟨"", none⟩).id⟩)
  else deck

/-- `SessionService.build_deck(user, current_level, total_items)`, with the
store snapshot `progress`, the clock `now` and the shuffle `σ` made explicit.
Returns `deck[:total_items]`. -/
def build_deck (cat : Catalog) (σ : List ContentItem → List ContentItem)
    (progress : List ProgRow) (now current total : Nat) : List DeckItem :=
  let acc1 := addDue total (dueRows progress now) ([], [])
  let level_items := (cat.items current).getD []
  let acc2 := addCurrentLevel σ progress total current level_items acc1
  let acc3 := addOtherLevels cat σ progress total current cat.levels acc2
  (repeatFill current total level_items acc3.1).take total

/-! ## Session state machine (`SessionService` over the repositories) -/

/-- One row of the `session_state` table (primary key `session_id`). -/
structure SessRow where
  session_id : Nat
  user_id : Nat
  level : Nat
  deck : List DeckItem
  item_index : Nat
  total_items : Nat
  blocked : Bool
  correct_count : Nat
  reward_stage : Nat
  mode : String
  current_attempts : Nat
  wrong_total : Nat
  care_stage : Nat
  awaiting_care : Nat
  care_json : Option String
deriving Repr, DecidableEq

/-- One row of the `attempts` table (the columns `count_for_session` uses). -/
structure AttemptRow where
  session_id : Nat
  is_correct : Bool
deriving Repr, DecidableEq

/-- The durable store as seen by `SessionService`: the `sessions` statuses,
the `session_state` rows, the logged attempts and the per-level progress. -/
structure Store where
  sessions : List (Nat × String)
  states : List SessRow
  attempts : List AttemptRow
  levelProgress : List ((Nat × Nat) × Nat)
deriving Repr, DecidableEq

/-- `SessionStateRepository.get_state`: the row with the given id (unique by
primary key). -/
def getState (st : Store) (sid : Nat) : Option SessRow :=
  st.states.find? (fun s => s.session_id == sid)

/-- `SessionRepository.update_status`. -/
def updateStatus (st : Store) (sid : Nat) (status : String) : Store :=
  { st with sessions := st.sessions.map (fun p => if p.1 = sid then (p.1, status) else p) }

/-- `SessionRepository.create_session`: inserts a row whose `status` column
takes its schema default `'pending'`. -/
def createSession (st : Store) (sid : Nat) : Store :=
  { st with sessions := st.sessions ++ [(sid, "pending")] }

/-- `SessionStateRepository.update_index`. -/
def updateIndex (st : Store) (sid idx : Nat) : Store :=
  let f := fun (s : SessRow) => if s.session_id = sid then { s with item_index := idx } else s
  { st with states := st.states.map f }

/-- `SessionStateRepository.update_attempts`. -/
def updateAttempts (st : Store) (sid n : Nat) : Store :=
  let f := fun (s : SessRow) => if s.session_id = sid then { s with current_attempts := n } else s
  { st with states := st.states.map f }

/-- `SessionStateRepository.delete_state`. -/
def deleteState (st : Store) (sid : Nat) : Store :=
  { st with states := st.states.filter (fun s => !(s.session_id == sid)) }

/-- `AttemptRepository.count_for_session`: `(COUNT(*), SUM(is_correct))`. -/
def countForSession (st : Store) (sid : Nat) : Nat × Nat :=
  ((st.attempts.filter (fun a => a.session_id == sid)).length,
   (st.attempts.filter (fun a => a.session_id == sid && a.is_correct)).length)

/-- `ProgressRepository.load_progress` (0 when no row exists). -/
def loadProgress (st : Store) (uid lvl : Nat) : Nat :=
  match st.levelProgress.find? (fun p => p.1 == (uid, lvl)) with
  | some p => p.2
  | none => 0

/-- `ProgressRepository.save_progress` (upsert). -/
def saveProgress (st : Store) (uid lvl value : Nat) : Store :=
  match st.levelProgress.find? (fun p => p.1 == (uid, lvl)) with
  | some _ =>
    let f := fun (p : (Nat × Nat) × Nat) => if p.1 = (uid, lvl) then (p.1, value) else p
    { st with levelProgress := st.levelProgress.map f }
  | none => { st with levelProgress := st.levelProgress ++ [((uid, lvl), value)] }

/-- `SessionService.complete_session`: final status plus
`progress := max(existing, correct)`. -/
def completeSession (st : Store) (sid uid lvl correct total : Nat) : Store :=
  let status := if total ≠ 0 ∧ correct = total then "passed" else "done"
  let st1 := updateStatus st sid status
  saveProgress st1 uid lvl (max (loadProgress st1 uid lvl) correct)

/-- `SessionService.start_session`: creates the session row, marks it active,
builds the deck and unconditionally creates the `session_state` row with
`item_index = 0` and `total_items = len(deck)`. `newSid` is the
autoincrement id handed out by the insert. -/
def startSession (st : Store) (newSid : Nat)
    (cat : Catalog) (σ : List ContentItem → List ContentItem)
    (progress : List ProgRow) (now : Nat)
    (uid lvl total : Nat) : Nat × Store :=
  let st1 := createSession st newSid
  let st2 := updateStatus st1 newSid "active"
  let deck := build_deck cat σ progress now lvl total
  let row : SessRow :=
    { session_id := newSid, user_id := uid, level := lvl, deck := deck
      item_index := 0, total_items := deck.length, blocked := false
      correct_count := 0, reward_stage := 0, mode := "normal"
      current_attempts := 0, wrong_total := 0, care_stage := 0
      awaiting_care := 0, care_json := none }
  (newSid, { st2 with states := st2.states ++ [row] })

/-- `SessionService.advance_item`: re-reads the stored row; if it is gone the
call is a no-op, otherwise it writes `item_index := stored + 1` and resets
`current_attempts`. -/
def advanceItem (st : Store) (sid : Nat) : Store :=
  match getState st sid with
  | none => st
  | some row => updateAttempts (updateIndex st sid (row.item_index + 1)) sid 0

/-- `SessionService.finish_if_needed`: `True` when the row is already gone;
`False` while the cursor has not reached the end; otherwise finalizes via
`complete_session` and deletes the row. -/
def finishIfNeeded (st : Store) (sid uid lvl : Nat) : Bool × Store :=
  match getState st sid with
  | none => (true, st)
  | some row =>
    if row.item_index < row.total_items then (false, st)
    else
      let tc := countForSession st sid
      (true, deleteState (completeSession st sid uid lvl tc.2 tc.1) sid)

/-! ## Pet simulation (`PetService.apply_decay`) -/

/-- `_clamp(v)` of `pet_service.py`: clamps to the 0–100 scale. -/
def clamp (v : Int) : Int := max 0 (min 100 v)

/-- The `pets` row fields touched by `apply_decay`. -/
structure Pet where
  happiness : Int
  hunger : Int
  thirst : Int
  hygiene : Int
  energy : Int
  mood : Int
  health : Int
  action_tokens : Int
  missed_sessions_streak : Int
  resurrect_streak : Int
  is_dead : Bool
deriving Repr, DecidableEq

/-- `PetService.apply_decay` for a window containing `k` elapsed scheduled
session slots (`k = len(self._session_slots_between(...))`): a dead pet only
has its `last_checked_at` advanced; otherwise each slot adds one missed
session and one round of need decay, then the sick (streak ≥ 3) and death
(streak ≥ 4) tiers apply, and every need is written back clamped to 0–100. -/
def applyDecay (p : Pet) (k : Nat) : Pet :=
  if p.is_dead then p
  else if k = 0 then
    { p with
      happiness := clamp p.happiness, hunger := clamp p.hunger
      thirst := clamp p.thirst, hygiene := clamp p.hygiene
      energy := clamp p.energy, mood := clamp p.mood, health := clamp p.health }
  else
    let streak := p.missed_sessions_streak + k
    let hap := p.happiness - 10 * k
    let hun := p.hunger - 12 * k
    let thi := p.thirst - 12 * k
    let hyg := p.hygiene - 8 * k
    let ene := p.energy - 10 * k
    let moo := p.mood - 8 * k
    let hea := p.health - 6 * k
    if 4 ≤ streak then
      { happiness := 0, hunger := clamp hun, thirst := clamp thi
        hygiene := clamp hyg, energy := clamp ene, mood := clamp moo
        health := 0, action_tokens := 0, missed_sessions_streak := streak
        resurrect_streak := 0, is_dead := true }
    else if 3 ≤ streak then
      { happiness := clamp (min hap 40), hunger := clamp hun, thirst := clamp thi
        hygiene := clamp hyg, energy := clamp ene, mood := clamp moo
        health := clamp (min hea 25), action_tokens := p.action_tokens
        missed_sessions_streak := streak, resurrect_streak := p.resurrect_streak
        is_dead := false }
    else
      { happiness := clamp hap, hunger := clamp hun, thirst := clamp thi
        hygiene := clamp hyg, energy := clamp ene, mood := clamp moo
        health := clamp hea, action_tokens := p.action_tokens
        missed_sessions_streak := streak, resurrect_streak := p.resurrect_streak
        is_dead := false }

/-! ## Concrete instances used in witnesses and counterexamples -/

/-- Level-1 item tagged "mono". -/
def itemM1 : ContentItem := ⟨"m1", some "mono"⟩

/-- Second level-1 item tagged "mono". -/
def itemM2 : ContentItem := ⟨"m2", some "mono"⟩

/-- Level-1 item tagged "di". -/
def itemD1 : ContentItem := ⟨"d1", some "di"⟩

/-- Level-2 item. -/
def itemB1 : ContentItem := ⟨"b1", none⟩

/-- Second level-2 item. -/
def itemB2 : ContentItem := ⟨"b2", none⟩

/-- Catalog for the mono/di gating scenario: level 1 holds two "mono" items
and one "di" item. -/
def catMonoDi : Catalog :=
  ⟨[1], fun l => if l = 1 then some [itemM1, itemM2, itemD1] else none⟩

/-- Catalog whose level-1 file is empty while level 2 has two items. -/
def catEmptyL1 : Catalog :=
  ⟨[1, 2], fun l => if l = 1 then some [] else if l = 2 then some [itemB1, itemB2] else none⟩

/-- Catalog with two level-1 items and two level-2 items. -/
def catTwoLevels : Catalog :=
  ⟨[1, 2], fun l =>
    if l = 1 then some [itemM1, itemM2]
    else if l = 2 then some [itemB1, itemB2] else none⟩

/-- Progress snapshot where both level-2 items are mastered (stage 3) and
nothing is scheduled. -/
def progMasteredL2 : List ProgRow := [⟨2, "b1", 3, none⟩, ⟨2, "b2", 3, none⟩]

/-- Progress snapshot where both level-1 items are mastered (stage 3) and
nothing is scheduled. -/
def progMasteredL1 : List ProgRow := [⟨1, "m1", 3, none⟩, ⟨1, "m2", 3, none⟩]

/-- An entirely empty catalog. -/
def catNone : Catalog := ⟨[], fun _ => none⟩

/-- The body of `build_deck` specialized to `catMonoDi` with empty progress,
current level 1, `now = 0`, after substituting the two shuffle outputs
`x = σ(unfinished mono)` and `y = σ(unfinished di)`; definitionally equal to
`build_deck catMonoDi σ [] 0 1 total` when `x`/`y` are those outputs. -/
def monoDiDeck (σ : List ContentItem → List ContentItem)
    (x y : List ContentItem) (total : Nat) : List DeckItem :=
  let acc1 := addDue total (dueRows [] 0) ([], [])
  let acc2 :=
    if (unfinishedOf [] 1 (monoOf ((catMonoDi.items 1).getD []))).isEmpty then acc1
    else addItems [] total 1 x acc1
  let acc3 :=
    if acc2.1.length < total then addItems [] total 1 y acc2
    else acc2
  let acc4 := addOtherLevels catMonoDi σ [] total 1 catMonoDi.levels acc3
  (repeatFill 1 total ((catMonoDi.items 1).getD []) acc4.1).take total

/-- A session-state row whose cursor is at item 0 of 5. -/
def demoRow : SessRow := ⟨1, 7, 1, [], 0, 5, false, 0, 0, "normal", 0, 0, 0, 0, none⟩

/-- A store holding the one active session `demoRow`. -/
def demoStore : Store := ⟨[(1, "active")], [demoRow], [], []⟩

/-- The empty store. -/
def emptyStore : Store := ⟨[], [], [], []⟩

/-! ## Helper lemmas -/

/-- One tracker call never lowers the review stage or the correct count. -/
theorem applyOp_monotone (s : ItemProg) (op : TrackerOp) :
    s.review_stage ≤ (applyOp s op).review_stage ∧
    s.learn_correct_count ≤ (applyOp s op).learn_correct_count := by
  cases op with
  | correct now =>
    simp only [applyOp, record_correct, Option.getD_some]
    split_ifs <;> simp_all
  | wrong now =>
    simp [applyOp, record_wrong]

/-- Deleting a session's state row makes `get_state` return nothing. -/
theorem getState_deleteState (st : Store) (sid : Nat) :
    getState (deleteState st sid) sid = none := by
  simp only [getState, deleteState]
  rw [List.find?_eq_none]
  intro s hs
  have := (List.mem_filter.mp hs).2
  simp_all

/-- `completeSession` does not touch the `session_state` table. -/
theorem completeSession_states (st : Store) (sid uid lvl c t : Nat) :
    (completeSession st sid uid lvl c t).states = st.states := by
  simp only [completeSession, updateStatus, saveProgress]
  split <;> rfl

/-- `find?` over the row-update map used by `update_index`/`update_attempts`:
the first row keyed `sid` is returned, updated. -/
theorem find?_update_map (l : List SessRow) (sid : Nat) (u : SessRow → SessRow)
    (hu : ∀ s, (u s).session_id = s.session_id) (row : SessRow)
    (h : l.find? (fun s => s.session_id == sid) = some row) :
    (l.map (fun s => if s.session_id = sid then u s else s)).find?
        (fun s => s.session_id == sid) = some (u row) := by
  induction l with
  | nil => simp at h
  | cons s rest ih =>
    by_cases hs : s.session_id = sid
    · have hfound : s = row := by
        rw [List.find?_cons_of_pos _ (by simp [hs])] at h
        exact Option.some_injective _ h
      subst hfound
      simp only [List.map_cons]
      rw [List.find?_cons_of_pos _ (by simp [hs, hu])]
      simp [hs]
    · rw [List.find?_cons_of_neg _ (by simp [hs])] at h
      simp only [List.map_cons]
      rw [List.find?_cons_of_neg _ (by simp [hs])]
      exact ih h

/-- Effect of `advance_item` on an existing row: the cursor moves to
`stored + 1` and the retry counter resets. -/
theorem getState_advanceItem (st : Store) (sid : Nat) (row : SessRow)
    (h : getState st sid = some row) :
    getState (advanceItem st sid) sid =
      some { row with item_index := row.item_index + 1, current_attempts := 0 } := by
  have h' : List.find? (fun s => s.session_id == sid) st.states = some row := h
  simp only [advanceItem, getState, updateAttempts, updateIndex, h']
  rw [List.map_map]
  have hcomp : ((fun (s : SessRow) => if s.session_id = sid then { s with current_attempts := 0 } else s) ∘
      (fun (s : SessRow) => if s.session_id = sid then { s with item_index := row.item_index + 1 } else s)) =
      fun (s : SessRow) => if s.session_id = sid then
        { s with item_index := row.item_index + 1, current_attempts := 0 } else s := by
    funext s
    by_cases hs : s.session_id = sid <;> simp [hs]
  rw [hcomp]
  exact find?_update_map st.states sid
    (fun s => { s with item_index := row.item_index + 1, current_attempts := 0 })
    (fun s => rfl) row h

/-- `addDue` on an exhausted due list returns the accumulator. -/
theorem addDue_nil (total : Nat) (acc : DeckAcc) : addDue total [] acc = acc := by
  obtain ⟨deck, chosen⟩ := acc
  rfl

/-- `addItems` on an exhausted item list returns the accumulator. -/
theorem addItems_nil (progress : List ProgRow) (total lvl : Nat) (acc : DeckAcc) :
    addItems progress total lvl [] acc = acc := by
  obtain ⟨deck, chosen⟩ := acc
  rfl

/-- When every offered item is already finished, `add_items` adds nothing. -/
theorem addItems_skip_finished (progress : List ProgRow) (total lvl : Nat) :
    ∀ (items : List ContentItem) (acc : DeckAcc),
      (∀ i ∈ items, isFinished progress lvl i.id = true) →
      addItems progress total lvl items acc = acc := by
  intro items
  induction items with
  | nil => exact fun acc _ => addItems_nil progress total lvl acc
  | cons i rest ih =>
    intro acc h
    obtain ⟨deck, chosen⟩ := acc
    have hrest : ∀ j ∈ rest, isFinished progress lvl j.id = true :=
      fun j hj => h j (List.mem_cons_of_mem i hj)
    simp only [addItems]
    split_ifs with h1 h2 h3
    · rfl
    · exact ih (deck, chosen) hrest
    · exact ih (deck, chosen) hrest
    · exact absurd (h i (List.mem_cons_self i rest)) h3

/-- Everything `add_items` appends carries the level it was called with. -/
theorem addItems_mem (progress : List ProgRow) (total lvl : Nat) :
    ∀ (items : List ContentItem) (deck : List DeckItem) (chosen : List (Nat × String)),
      ∀ d ∈ (addItems progress total lvl items (deck, chosen)).1,
        d ∈ deck ∨ d.level = lvl := by
  intro items
  induction items with
  | nil => intro deck chosen d hd; exact Or.inl hd
  | cons i rest ih =>
    intro deck chosen d hd
    simp only [addItems] at hd
    split_ifs at hd with h1 h2 h3
    · exact Or.inl hd
    · exact ih deck chosen d hd
    · exact ih deck chosen d hd
    · rcases ih _ _ d hd with hin | hlvl
      · rcases List.mem_append.mp hin with hdeck | hone
        · exact Or.inl hdeck
        · right
          have : d = (⟨lvl, i.id⟩ : DeckItem) := List.mem_singleton.mp hone
          rw [this]
      · exact Or.inr hlvl

/-- `add_items` when nothing is skipped: the deck grows to
`min total (deck + items)` (and never shrinks below its current length). -/
theorem addItems_fill_length (progress : List ProgRow) (total lvl : Nat) :
    ∀ (items : List ContentItem) (deck : List DeckItem) (chosen : List (Nat × String)),
      (∀ i ∈ items, isFinished progress lvl i.id = false) →
      (∀ i ∈ items, (lvl, i.id) ∉ chosen) →
      (items.map ContentItem.id).Nodup →
      (addItems progress total lvl items (deck, chosen)).1.length =
        max deck.length (min total (deck.length + items.length)) := by
  intro items
  induction items with
  | nil =>
    intro deck chosen _ _ _
    rw [addItems_nil]
    simp only [List.length_nil, Nat.add_zero]
    omega
  | cons i rest ih =>
    intro deck chosen hfin hch hnd
    simp only [addItems]
    split_ifs with h1 h2 h3
    · simp only [List.length_cons]
      omega
    · exact absurd h2 (hch i (List.mem_cons_self i rest))
    · exact absurd h3 (by simp [hfin i (List.mem_cons_self i rest)])
    · have hfin' : ∀ j ∈ rest, isFinished progress lvl j.id = false :=
        fun j hj => hfin j (List.mem_cons_of_mem i hj)
      rw [List.map_cons, List.nodup_cons] at hnd
      have hndhead : i.id ∉ rest.map ContentItem.id := hnd.1
      have hch' : ∀ j ∈ rest, (lvl, j.id) ∉ (lvl, i.id) :: chosen := by
        intro j hj hmem
        rcases List.mem_cons.mp hmem with hkey | hold
        · have hjid : j.id = i.id := by
            have := congrArg Prod.snd hkey
            simpa using this
          exact hndhead (hjid ▸ List.mem_map_of_mem ContentItem.id hj)
        · exact hch j (List.mem_cons_of_mem i hj) hold
      have hnd' : (rest.map ContentItem.id).Nodup := hnd.2
      have := ih (deck ++ [⟨lvl, i.id⟩]) ((lvl, i.id) :: chosen) hfin' hch' hnd'
      rw [this]
      simp only [List.length_append, List.length_singleton, List.length_cons,
        List.length_nil]
      omega

/-- Step 3 adds nothing when every remaining level is empty or missing. -/
theorem addOtherLevels_of_empty (cat : Catalog) (σ : List ContentItem → List ContentItem)
    (progress : List ProgRow) (total current : Nat) (hσnil : σ [] = []) :
    ∀ (lvls : List Nat) (acc : DeckAcc),
      (∀ l ∈ lvls, (cat.items l).getD [] = []) →
      addOtherLevels cat σ progress total current lvls acc = acc := by
  intro lvls
  induction lvls with
  | nil => intro acc _; rfl
  | cons l rest ih =>
    intro acc h
    have hrest : ∀ m ∈ rest, (cat.items m).getD [] = [] :=
      fun m hm => h m (List.mem_cons_of_mem l hm)
    simp only [addOtherLevels]
    split_ifs with h1
    · exact ih acc hrest
    · cases hcl : cat.items l with
      | none => exact ih acc hrest
      | some items =>
        have hitems : items = [] := by
          have := h l (List.mem_cons_self l rest)
          rw [hcl] at this
          simpa using this
        subst hitems
        simp only [unfinishedOf, List.filter_nil, List.isEmpty_nil, if_true, hσnil]
        rw [addItems_nil]
        exact ih acc hrest

/-- With a non-empty repeat pool, step 4 tops the deck up to `total`. -/
theorem repeatFill_length (current total : Nat) (li : List ContentItem)
    (deck : List DeckItem) (h : li ≠ []) :
    (repeatFill current total li deck).length = max deck.length total := by
  unfold repeatFill
  split_ifs with hc
  · simp only [List.length_append, List.length_map, List.length_range]
    omega
  · rw [not_and_or] at hc
    rcases hc with hc | hc
    · omega
    · exact absurd h hc

/-- A sublist of an all-finished item list has no unfinished members. -/
theorem unfinishedOf_eq_nil (progress : List ProgRow) (lvl : Nat)
    (items sub : List ContentItem)
    (hsub : ∀ i ∈ sub, i ∈ items)
    (hfin : ∀ i ∈ items, isFinished progress lvl i.id = true) :
    unfinishedOf progress lvl sub = [] := by
  simp only [unfinishedOf]
  rw [List.filter_eq_nil_iff]
  intro i hi
  simp [hfin i (hsub i hi)]

/-- Items in the unfinished bucket are indeed unfinished. -/
theorem unfinishedOf_not_finished (progress : List ProgRow) (lvl : Nat)
    (items : List ContentItem) (i : ContentItem)
    (hi : i ∈ unfinishedOf progress lvl items) :
    isFinished progress lvl i.id = false := by
  have := List.of_mem_filter hi
  simpa using this

/-- Step 2 adds nothing when the current level's item list is empty. -/
theorem addCurrentLevel_nil (σ : List ContentItem → List ContentItem)
    (progress : List ProgRow) (total current : Nat) (acc : DeckAcc)
    (hσnil : σ [] = []) :
    addCurrentLevel σ progress total current [] acc = acc := by
  simp [addCurrentLevel, monoOf, diOf, unfinishedOf, hσnil, addItems_nil]

/-- Step 2 adds nothing at level 1 when every level-1 item is finished. -/
theorem addCurrentLevel_all_finished (σ : List ContentItem → List ContentItem)
    (progress : List ProgRow) (total : Nat) (L1 : List ContentItem) (acc : DeckAcc)
    (hσ : ∀ l, (σ l).Perm l)
    (hfin : ∀ i ∈ L1, isFinished progress 1 i.id = true) :
    addCurrentLevel σ progress total 1 L1 acc = acc := by
  have hmono : unfinishedOf progress 1 (monoOf L1) = [] :=
    unfinishedOf_eq_nil progress 1 L1 (monoOf L1)
      (fun i hi => List.mem_of_mem_filter hi) hfin
  have hdi : unfinishedOf progress 1 (diOf L1) = [] :=
    unfinishedOf_eq_nil progress 1 L1 (diOf L1)
      (fun i hi => List.mem_of_mem_filter hi) hfin
  have hskip : addItems progress total 1 (σ (diOf L1)) acc = acc :=
    addItems_skip_finished progress total 1 (σ (diOf L1)) acc
      (fun i hi => hfin i (List.mem_of_mem_filter ((hσ (diOf L1)).mem_iff.mp hi)))
  simp only [addCurrentLevel, if_pos rfl, hmono, hdi, List.isEmpty_nil, if_true,
    ite_true, hskip, ite_self]

/-- A permutation of a two-element list is one of its two arrangements. -/
theorem perm_pair_cases {α : Type} {l : List α} {a b : α} (h : l.Perm [a, b]) :
    l = [a, b] ∨ l = [b, a] := by
  have hlen := h.length_eq
  cases l with
  | nil => simp at hlen
  | cons x t =>
    cases t with
    | nil => simp at hlen
    | cons y t2 =>
      cases t2 with
      | cons z t3 => simp at hlen
      | nil =>
        have hx : x = a ∨ x = b := by
          have : x ∈ [a, b] := h.mem_iff.mp (List.mem_cons_self x [y])
          simpa using this
        rcases hx with hx | hx
        · subst hx
          left
          have hy : [y].Perm [b] := h.cons_inv
          rw [List.perm_singleton.mp hy]
        · subst hx
          right
          have hswap : [x, y].Perm [x, a] := h.trans (List.Perm.swap x a [])
          have hy : [y].Perm [a] := hswap.cons_inv
          rw [List.perm_singleton.mp hy]

/-- `clamp` lands in the 0–100 scale. -/
theorem clamp_mem (v : Int) : 0 ≤ clamp v ∧ clamp v ≤ 100 := by
  unfold clamp
  omega

/-! ## Claims -/

/-- C1: `recordCorrect` advances the stored `(learnCorrectCount, reviewStage)`
by exactly one step of the transition table: stage 0 count 0 ↦ count 1 stage 0
due null; stage 0 count 1 ↦ count 2 stage 1 due now+10min; stage 1 ↦ stage 2
due now+2d; stage 2 ↦ stage 3 due null; stage 3 is a no-op with null due; a
missing record behaves as the freshly created default (count 0, stage 0). -/
theorem record_correct_follows_transition_table (now : Nat) (d l : Option Nat) (c : Nat) :
    record_correct (some ⟨0, 0, d, l⟩) now = ⟨1, 0, none, some now⟩
    ∧ record_correct (some ⟨1, 0, d, l⟩) now = ⟨2, 1, some (now + tenMinutes), some now⟩
    ∧ record_correct (some ⟨c, 1, d, l⟩) now = ⟨c, 2, some (now + twoDays), some now⟩
    ∧ record_correct (some ⟨c, 2, d, l⟩) now = ⟨c, 3, none, some now⟩
    ∧ record_correct (some ⟨c, 3, none, l⟩) now = ⟨c, 3, none, some now⟩
    ∧ record_correct none now = record_correct (some freshRow) now := by
  refine ⟨?_, ?_, ?_, ?_, ?_, rfl⟩ <;> simp [record_correct]

/-- C2: `recordWrong` leaves count and stage unchanged, reschedules to
now+10min when stage ≥ 1, keeps the due date null when stage = 0, and a
missing record is created with the defaults before being stamped. -/
theorem record_wrong_keeps_mastery (s : ItemProg) (now : Nat) :
    (record_wrong (some s) now).learn_correct_count = s.learn_correct_count
    ∧ (record_wrong (some s) now).review_stage = s.review_stage
    ∧ (1 ≤ s.review_stage → (record_wrong (some s) now).next_due_at = some (now + tenMinutes))
    ∧ (s.review_stage = 0 → (record_wrong (some s) now).next_due_at = none)
    ∧ record_wrong none now = ⟨0, 0, none, some now⟩ := by
  refine ⟨rfl, rfl, ?_, ?_, ?_⟩
  · intro h
    simp [record_wrong, h]
  · intro h
    simp [record_wrong, h]
  · simp [record_wrong, freshRow]

/-- Witness for C2 at a concrete stage-1 record. -/
theorem record_wrong_keeps_mastery_witness :
    (record_wrong (some ⟨1, 1, none, none⟩) 5).learn_correct_count = 1
    ∧ (record_wrong (some ⟨1, 1, none, none⟩) 5).next_due_at = some (5 + tenMinutes)
    ∧ (record_wrong (some ⟨1, 0, none, none⟩) 5).next_due_at = none := by
  have h1 := record_wrong_keeps_mastery ⟨1, 1, none, none⟩ 5
  have h0 := record_wrong_keeps_mastery ⟨1, 0, none, none⟩ 5
  exact ⟨h1.1, h1.2.2.1 (by decide), h0.2.2.2.1 rfl⟩

/-- C3: across any finite sequence of `recordCorrect`/`recordWrong` calls on
the same record, `reviewStage` is non-decreasing and `learnCorrectCount`
never decreases. -/
theorem mastery_monotone (s : ItemProg) (ops : List TrackerOp) :
    s.review_stage ≤ (runOps s ops).review_stage
    ∧ s.learn_correct_count ≤ (runOps s ops).learn_correct_count := by
  induction ops generalizing s with
  | nil => exact ⟨le_rfl, le_rfl⟩
  | cons op ops ih =>
    have hstep := applyOp_monotone s op
    have hrest := ih (applyOp s op)
    have hrun : runOps s (op :: ops) = runOps (applyOp s op) ops := rfl
    rw [hrun]
    exact ⟨hstep.1.trans hrest.1, hstep.2.trans hrest.2⟩

/-- C7 counterexample: with an empty catalog the built deck is empty, yet
`start_session` does not fail — it creates a `session_state` row (with
`total_items = 0`) and marks the session active. There is no
`NoContentAvailable` path anywhere in the code. -/
theorem start_session_empty_deck_counterexample :
    build_deck catNone id [] 0 1 10 = []
    ∧ (startSession emptyStore 1 catNone id [] 0 7 1 10).2.states =
        [⟨1, 7, 1, [], 0, 0, false, 0, 0, "normal", 0, 0, 0, 0, none⟩]
    ∧ (startSession emptyStore 1 catNone id [] 0 7 1 10).2.sessions = [(1, "active")] := by
  decide

/-- C7 amended: `start_session` never aborts. For every input — the empty
deck included — it creates exactly one `session_state` row for the new
session id, with `item_index = 0` and `total_items` equal to the length of
the deck `build_deck` produced. -/
theorem start_session_always_creates_state (st : Store) (newSid : Nat)
    (cat : Catalog) (σ : List ContentItem → List ContentItem)
    (progress : List ProgRow) (now uid lvl total : Nat)
    (hfresh : ∀ s ∈ st.states, s.session_id ≠ newSid) :
    getState (startSession st newSid cat σ progress now uid lvl total).2 newSid =
      some ⟨newSid, uid, lvl, build_deck cat σ progress now lvl total, 0,
            (build_deck cat σ progress now lvl total).length, false, 0, 0,
            "normal", 0, 0, 0, 0, none⟩ := by
  simp only [startSession, getState, updateStatus, createSession]
  rw [List.find?_append]
  have hnone : List.find? (fun s => s.session_id == newSid) st.states = none := by
    rw [List.find?_eq_none]
    intro s hs
    simpa using hfresh s hs
  simp [hnone]

/-- Witness for the amended C7 at the empty store and empty catalog. -/
theorem start_session_always_creates_state_witness :
    getState (startSession emptyStore 1 catNone id [] 0 7 1 10).2 1 =
      some ⟨1, 7, 1, build_deck catNone id [] 0 1 10, 0,
            (build_deck catNone id [] 0 1 10).length, false, 0, 0,
            "normal", 0, 0, 0, 0, none⟩ :=
  start_session_always_creates_state emptyStore 1 catNone id [] 0 7 1 10
    (by intro s hs; simp [emptyStore] at hs)

/-- C8 counterexample: replaying `advance_item` is not idempotent. From the
stored index 0, one call moves the cursor to 1 and a replay of the same
advance moves it again to 2 — there is no guard comparing the stored
`item_index` against the attempt's index. -/
theorem advance_item_replay_counterexample :
    getState (advanceItem demoStore 1) 1 = some { demoRow with item_index := 1 }
    ∧ getState (advanceItem (advanceItem demoStore 1) 1) 1 =
        some { demoRow with item_index := 2 } := by
  decide

/-- C8 amended: `advance_item` checks only that the session-state row still
exists (a no-op when it is gone); whenever the row exists, each call —
including a replayed one — sets `item_index` to the currently stored value
plus one and resets `current_attempts`. -/
theorem advance_item_increments_each_call (st : Store) (sid : Nat) :
    (getState st sid = none → advanceItem st sid = st)
    ∧ (∀ row, getState st sid = some row →
        getState (advanceItem st sid) sid =
          some { row with item_index := row.item_index + 1, current_attempts := 0 }) := by
  constructor
  · intro h
    simp [advanceItem, h]
  · intro row h
    exact getState_advanceItem st sid row h

/-- Witness for the amended C8 at the one-session demo store. -/
theorem advance_item_increments_each_call_witness :
    getState (advanceItem demoStore 1) 1 =
      some { demoRow with item_index := demoRow.item_index + 1, current_attempts := 0 } :=
  (advance_item_increments_each_call demoStore 1).2 demoRow (by decide)

/-- C9: once `finish_if_needed` has reported a session finished (its state
row deleted or never present), calling it again returns "already finished"
(`true`) and leaves the whole store unchanged. -/
theorem finish_if_needed_idempotent (st : Store) (sid uid lvl : Nat)
    (h : (finishIfNeeded st sid uid lvl).1 = true) :
    finishIfNeeded (finishIfNeeded st sid uid lvl).2 sid uid lvl =
      (true, (finishIfNeeded st sid uid lvl).2) := by
  cases hg : getState st sid with
  | none => simp [finishIfNeeded, hg]
  | some row =>
    by_cases hlt : row.item_index < row.total_items
    · exfalso
      simp [finishIfNeeded, hg, hlt] at h
    · have hres : (finishIfNeeded st sid uid lvl).2 =
          deleteState (completeSession st sid uid lvl
            (countForSession st sid).2 (countForSession st sid).1) sid := by
        simp [finishIfNeeded, hg, hlt]
      rw [hres]
      simp [finishIfNeeded, getState_deleteState]

/-- Witness for C9: a session already absent from the store. -/
theorem finish_if_needed_idempotent_witness :
    finishIfNeeded (finishIfNeeded emptyStore 1 7 1).2 1 7 1 =
      (true, (finishIfNeeded emptyStore 1 7 1).2) :=
  finish_if_needed_idempotent emptyStore 1 7 1 (by decide)

/-- C4 counterexample: with an empty current-level (level 1) catalog, two
mastered non-due level-2 items and size 1, the deck comes back empty although
the combined catalog across all levels holds 2 ≥ 1 items — "fewer than size
only if the combined catalog is smaller than size" fails. -/
theorem build_deck_shortfall_counterexample :
    build_deck catEmptyL1 id progMasteredL2 1000 1 1 = []
    ∧ 1 ≤ (((catEmptyL1.items 1).getD []) ++ ((catEmptyL1.items 2).getD [])).length := by
  decide

/-- C4 amended: `build_deck` returns at most `size` entries, and whenever the
current level's catalog is non-empty it returns exactly `size` entries (the
repeat fallback cycles the current level); an empty catalog (with no stored
progress) yields an empty deck. When the current level's catalog is empty the
deck may be shorter than `size` even though other levels hold enough items,
because finished, non-due items of other levels are never selected. -/
theorem build_deck_size_bounds (cat : Catalog) (σ : List ContentItem → List ContentItem)
    (progress : List ProgRow) (now current total : Nat)
    (hσ : ∀ l, (σ l).Perm l) :
    (build_deck cat σ progress now current total).length ≤ total
    ∧ ((cat.items current).getD [] ≠ [] →
        (build_deck cat σ progress now current total).length = total)
    ∧ (progress = [] → (cat.items current).getD [] = [] →
        (∀ l ∈ cat.levels, (cat.items l).getD [] = []) →
        build_deck cat σ progress now current total = []) := by
  have hσnil : σ [] = [] := (hσ []).eq_nil
  refine ⟨?_, ?_, ?_⟩
  · simp only [build_deck]
    rw [List.length_take]
    exact min_le_left _ _
  · intro hne
    simp only [build_deck]
    rw [List.length_take, repeatFill_length _ _ _ _ hne]
    omega
  · intro hprog hcur hlvls
    subst hprog
    simp only [build_deck]
    rw [hcur]
    have hdue : dueRows [] now = [] := rfl
    rw [hdue, addDue_nil, addCurrentLevel_nil σ [] total current _ hσnil,
      addOtherLevels_of_empty cat σ [] total current hσnil cat.levels _ hlvls]
    simp [repeatFill]

/-- Witness for the amended C4: a non-empty level-1 catalog fills a deck of
size 3 exactly. -/
theorem build_deck_size_bounds_witness :
    (build_deck catMonoDi id [] 0 1 3).length = 3 :=
  (build_deck_size_bounds catMonoDi id [] 0 1 3 (fun l => List.Perm.refl l)).2.1
    (by decide)

/-- C5: in the mono/di scenario (two unfinished "mono" items, one unfinished
"di" item, level 1, nothing due), every shuffle outcome yields a size-3 deck
holding both mono items — in one of their two orders — strictly before the di
item, and a size-2 deck holding only the mono items. -/
theorem sublevel_gating (σ : List ContentItem → List ContentItem)
    (hσ : ∀ l, (σ l).Perm l) :
    (build_deck catMonoDi σ [] 0 1 3 = [⟨1, "m1"⟩, ⟨1, "m2"⟩, ⟨1, "d1"⟩]
      ∨ build_deck catMonoDi σ [] 0 1 3 = [⟨1, "m2"⟩, ⟨1, "m1"⟩, ⟨1, "d1"⟩])
    ∧ (build_deck catMonoDi σ [] 0 1 2 = [⟨1, "m1"⟩, ⟨1, "m2"⟩]
      ∨ build_deck catMonoDi σ [] 0 1 2 = [⟨1, "m2"⟩, ⟨1, "m1"⟩]) := by
  have hd : σ [itemD1] = [itemD1] := List.perm_singleton.mp (hσ [itemD1])
  have hb3 : build_deck catMonoDi σ [] 0 1 3 =
      monoDiDeck σ (σ [itemM1, itemM2]) (σ [itemD1]) 3 := rfl
  have hb2 : build_deck catMonoDi σ [] 0 1 2 =
      monoDiDeck σ (σ [itemM1, itemM2]) (σ [itemD1]) 2 := rfl
  rcases perm_pair_cases (hσ [itemM1, itemM2]) with hm | hm
  · refine ⟨Or.inl ?_, Or.inl ?_⟩
    · rw [hb3, hm, hd]
      exact rfl
    · rw [hb2, hm, hd]
      exact rfl
  · refine ⟨Or.inr ?_, Or.inr ?_⟩
    · rw [hb3, hm, hd]
      exact rfl
    · rw [hb2, hm, hd]
      exact rfl

/-- Witness for C5 with the identity shuffle. -/
theorem sublevel_gating_witness :
    build_deck catMonoDi id [] 0 1 3 = [⟨1, "m1"⟩, ⟨1, "m2"⟩, ⟨1, "d1"⟩]
    ∨ build_deck catMonoDi id [] 0 1 3 = [⟨1, "m2"⟩, ⟨1, "m1"⟩, ⟨1, "d1"⟩] :=
  (sublevel_gating id (fun l => List.Perm.refl l)).1

/-- C6: with levels 1 and 2 in the catalog, every level-1 item finished
(stage 3), nothing due, and `K` at most the number of unfinished level-2
items (whose ids are unique, as catalog ids are per level), the deck built
for current level 1 with size `K` holds exactly `K` items, all from level 2. -/
theorem level_advancement (cat : Catalog) (σ : List ContentItem → List ContentItem)
    (progress : List ProgRow) (L1 L2 : List ContentItem) (now K : Nat)
    (hσ : ∀ l, (σ l).Perm l)
    (hcat : cat.levels = [1, 2])
    (h1 : cat.items 1 = some L1)
    (h2 : cat.items 2 = some L2)
    (hfin : ∀ i ∈ L1, isFinished progress 1 i.id = true)
    (hdue : dueRows progress now = [])
    (hnod : ((unfinishedOf progress 2 L2).map ContentItem.id).Nodup)
    (hK : K ≤ (unfinishedOf progress 2 L2).length) :
    (build_deck cat σ progress now 1 K).length = K
    ∧ ∀ d ∈ build_deck cat σ progress now 1 K, d.level = 2 := by
  have hL1 : (cat.items 1).getD [] = L1 := by
    rw [h1]
    rfl
  have hacl := addCurrentLevel_all_finished σ progress K L1
    (([], []) : DeckAcc) hσ hfin
  simp only [build_deck, hL1, hdue, addDue_nil, hcat, hacl]
  have hstep1 : addOtherLevels cat σ progress K 1 [1, 2] (([], []) : DeckAcc) =
      addOtherLevels cat σ progress K 1 [2] (([], []) : DeckAcc) := by
    simp [addOtherLevels]
  rw [hstep1]
  by_cases hK0 : K = 0
  · subst hK0
    have hstep2 : addOtherLevels cat σ progress 0 1 [2] (([], []) : DeckAcc) =
        (([], []) : DeckAcc) := by
      simp [addOtherLevels]
    rw [hstep2]
    refine ⟨by simp [repeatFill], ?_⟩
    intro d hd
    simp [repeatFill] at hd
  · have hunf_ne : unfinishedOf progress 2 L2 ≠ [] := by
      intro hnil
      rw [hnil] at hK
      simp at hK
      omega
    have hcond : ¬ (K ≤ (([], []) : DeckAcc).1.length ∨ 2 = 1) := by
      simp
      omega
    have hstep2 : addOtherLevels cat σ progress K 1 [2] (([], []) : DeckAcc) =
        addItems progress K 2 (σ (unfinishedOf progress 2 L2)) ([], []) := by
      simp only [addOtherLevels, if_neg hcond, h2]
      rw [if_neg (by simp [List.isEmpty_iff, hunf_ne])]
    rw [hstep2]
    have hfinX : ∀ i ∈ σ (unfinishedOf progress 2 L2),
        isFinished progress 2 i.id = false := by
      intro i hi
      exact unfinishedOf_not_finished progress 2 L2 i
        ((hσ (unfinishedOf progress 2 L2)).mem_iff.mp hi)
    have hchX : ∀ i ∈ σ (unfinishedOf progress 2 L2),
        (2, i.id) ∉ ([] : List (Nat × String)) := by
      intro i _ h
      simp at h
    have hndX : ((σ (unfinishedOf progress 2 L2)).map ContentItem.id).Nodup :=
      (((hσ (unfinishedOf progress 2 L2)).map ContentItem.id).nodup_iff).mpr hnod
    have hlenσ : (σ (unfinishedOf progress 2 L2)).length =
        (unfinishedOf progress 2 L2).length :=
      (hσ (unfinishedOf progress 2 L2)).length_eq
    have hfill := addItems_fill_length progress K 2 (σ (unfinishedOf progress 2 L2))
      [] [] hfinX hchX hndX
    have hlenF : (addItems progress K 2 (σ (unfinishedOf progress 2 L2))
        (([], []) : DeckAcc)).1.length = K := by
      rw [hfill]
      simp only [List.length_nil]
      omega
    have hrf : repeatFill 1 K L1 (addItems progress K 2
        (σ (unfinishedOf progress 2 L2)) (([], []) : DeckAcc)).1 =
        (addItems progress K 2 (σ (unfinishedOf progress 2 L2))
          (([], []) : DeckAcc)).1 := by
      unfold repeatFill
      rw [if_neg]
      intro hc
      rw [hlenF] at hc
      omega
    rw [hrf, List.take_of_length_le (le_of_eq hlenF)]
    refine ⟨hlenF, ?_⟩
    intro d hd
    rcases addItems_mem progress K 2 (σ (unfinishedOf progress 2 L2)) [] [] d hd with h | h
    · simp at h
    · exact h

/-- Witness for C6: two mastered level-1 items, two unfinished level-2 items,
K = 2, identity shuffle. -/
theorem level_advancement_witness :
    (build_deck catTwoLevels id progMasteredL1 1000 1 2).length = 2
    ∧ ∀ d ∈ build_deck catTwoLevels id progMasteredL1 1000 1 2, d.level = 2 :=
  level_advancement catTwoLevels id progMasteredL1 [itemM1, itemM2] [itemB1, itemB2]
    1000 2 (fun l => List.Perm.refl l) rfl (by decide) (by decide)
    (by decide) (by decide) (by decide) (by decide)

/-- C10: for a living pet, one `apply_decay` covering `k ≥ 1` elapsed
scheduled slots adds exactly `k` to the missed-session streak and applies the
per-slot decay (−12 hunger/thirst, −8 hygiene/mood, −10 energy, −10
happiness, −6 health per slot) with every need clamped to 0–100; a resulting
streak of exactly 3 makes the pet sick (health capped at 25, happiness at
40, not dead), and a resulting streak of 4 or more kills it (happiness 0,
health 0, action tokens and resurrect streak reset to 0). -/
theorem apply_decay_slots (p : Pet) (k : Nat)
    (hd : p.is_dead = false) (hk : 1 ≤ k) :
    (applyDecay p k).missed_sessions_streak = p.missed_sessions_streak + k
    ∧ (applyDecay p k).hunger = clamp (p.hunger - 12 * k)
    ∧ (applyDecay p k).thirst = clamp (p.thirst - 12 * k)
    ∧ (applyDecay p k).hygiene = clamp (p.hygiene - 8 * k)
    ∧ (applyDecay p k).energy = clamp (p.energy - 10 * k)
    ∧ (applyDecay p k).mood = clamp (p.mood - 8 * k)
    ∧ (0 ≤ (applyDecay p k).health ∧ (applyDecay p k).health ≤ 100)
    ∧ (0 ≤ (applyDecay p k).happiness ∧ (applyDecay p k).happiness ≤ 100)
    ∧ (p.missed_sessions_streak + k = 3 →
        (applyDecay p k).is_dead = false
        ∧ (applyDecay p k).health = clamp (min (p.health - 6 * k) 25)
        ∧ (applyDecay p k).health ≤ 25
        ∧ (applyDecay p k).happiness = clamp (min (p.happiness - 10 * k) 40)
        ∧ (applyDecay p k).happiness ≤ 40)
    ∧ (4 ≤ p.missed_sessions_streak + k →
        (applyDecay p k).is_dead = true
        ∧ (applyDecay p k).happiness = 0
        ∧ (applyDecay p k).health = 0
        ∧ (applyDecay p k).action_tokens = 0
        ∧ (applyDecay p k).resurrect_streak = 0)
    ∧ (p.missed_sessions_streak + k < 3 →
        (applyDecay p k).is_dead = false
        ∧ (applyDecay p k).health = clamp (p.health - 6 * k)
        ∧ (applyDecay p k).happiness = clamp (p.happiness - 10 * k)) := by
  have hk0 : ¬ (k = 0) := by omega
  unfold applyDecay
  simp only [hd, Bool.false_eq_true, if_false, hk0]
  split_ifs with h4 h3
  · refine ⟨rfl, rfl, rfl, rfl, rfl, rfl, ?_, ?_, ?_, ?_, ?_⟩
    · exact ⟨le_rfl, by norm_num⟩
    · exact ⟨le_rfl, by norm_num⟩
    · intro h
      omega
    · intro _
      exact ⟨rfl, rfl, rfl, rfl, rfl⟩
    · intro h
      omega
  · refine ⟨rfl, rfl, rfl, rfl, rfl, rfl, (clamp_mem _), (clamp_mem _), ?_, ?_, ?_⟩
    · intro _
      refine ⟨rfl, rfl, ?_, rfl, ?_⟩
      · dsimp only
        unfold clamp
        omega
      · dsimp only
        unfold clamp
        omega
    · intro h
      omega
    · intro h
      omega
  · refine ⟨rfl, rfl, rfl, rfl, rfl, rfl, (clamp_mem _), (clamp_mem _), ?_, ?_, ?_⟩
    · intro h
      omega
    · intro h
      omega
    · intro _
      exact ⟨rfl, rfl, rfl⟩

/-- Witness for C10: a healthy pet with streak 0 missing three slots becomes
sick with streak 3. -/
theorem apply_decay_slots_witness :
    (applyDecay ⟨50, 50, 50, 50, 50, 50, 50, 2, 0, 1, false⟩ 3).missed_sessions_streak = 0 + 3
    ∧ (applyDecay ⟨50, 50, 50, 50, 50, 50, 50, 2, 0, 1, false⟩ 3).health ≤ 25
    ∧ (applyDecay ⟨50, 50, 50, 50, 50, 50, 50, 2, 0, 1, false⟩ 3).is_dead = false := by
  have h := apply_decay_slots ⟨50, 50, 50, 50, 50, 50, 50, 2, 0, 1, false⟩ 3 rfl (by decide)
  obtain ⟨h1, _, _, _, _, _, _, _, hsick, _, _⟩ := h
  have hs := hsick (by decide)
  exact ⟨h1, hs.2.2.1, hs.1⟩

end Animals
